import Mathlib

/-!
Verification of the motion-simulation core of ts_MTDome.

Shallow embedding of two source files:

* `src/python/lsst/ts/MTDome/mock_llc/mock_motion/azimuth_motion.py`
  (class `AzimuthMotion`, the analytic motion-profile engine), and
* `src/python/lsst/ts/Dome/mock_llc_statuses/amcs_status.py`
  (class `AmcsStatus`, the legacy time-stepped status aggregator).

Python float arithmetic is modelled as exact arithmetic: real numbers for the
azimuth engine (whose angle wrap involves pi) and rational numbers, extended
with the two infinities that `math.inf` produces, for the aggregator.
Methods that can raise `ValueError` are embedded as functions into `Except`;
since the Python code raises before mutating any attribute in every such path,
an `Except.error` result leaves the caller holding the unchanged prior state.
-/

namespace MTDome

/-- The `MotionState` enum from `lsst.ts.idl.enums`, restricted to the members
the two source files use. -/
inductive MotionState where
  | MOVING
  | CRAWLING
  | PARKING
  | PARKED
  | STOPPING
  | STOPPED
  deriving DecidableEq, Repr

/-! ## The azimuth motion-profile engine (`AzimuthMotion`) -/

/-- The mutable attributes of an `AzimuthMotion` instance (all inherited from
`BaseLlcMotion`): `_start_position`, `_max_speed`, `_start_tai`,
`_end_position`, `_end_tai`, `_crawl_velocity`, `_commanded_motion_state`.
The constant attributes `_min_position = 0` and `_max_position = 2*pi` are not
read by any code under `src/` and are omitted. -/
structure AzState where
  start_position : ℝ
  max_speed : ℝ
  start_tai : ℝ
  end_position : ℝ
  end_tai : ℝ
  crawl_velocity : ℝ
  commanded : MotionState

/-- The `ValueError`s the engine can raise. -/
inductive AzError where
  | timeTravel
  | crawlTooFast
  | badMotionState
  deriving DecidableEq, Repr

/-- The full circle, 2*pi radians: the period of the azimuth coordinate. -/
noncomputable def twoPi : ℝ := 2 * Real.pi

/-- The angle wrap `salobj.angle_wrap_nonnegative` composed with the
degree/radian conversions of line 184 of `azimuth_motion.py`: normalisation of
an angle into the half-open interval [0, 2*pi). -/
noncomputable def wrap (x : ℝ) : ℝ := x - twoPi * ⌊x / twoPi⌋

/-- Modelled from the spec: `BaseLlcMotion._get_distance` is not under `src/`.
The spec's evaluate algorithm uses `raw_position = start_position +
(end_position − start_position) × frac`, so the signed distance of the transit
leg is `end_position − start_position`. -/
def getDistance (s : AzState) : ℝ := s.end_position - s.start_position

/-- Modelled from the spec: `BaseLlcMotion._get_duration` is not under `src/`.
The spec defines `duration = |end_position − start_position| / max_speed`, and
0 when the commanded state is CRAWLING (crawling starts immediately with no
transit leg). -/
noncomputable def getDuration (s : AzState) : ℝ :=
  if s.commanded = .CRAWLING then 0 else |getDistance s| / s.max_speed

/-- `AzimuthMotion.get_position_velocity_and_motion_state` before the final
angle wrap of line 184: the branch structure of lines 136-183. -/
noncomputable def rawEvaluate (s : AzState) (tai : ℝ) :
    Except AzError (ℝ × ℝ × MotionState) :=
  if s.end_tai ≤ tai then
    if s.commanded = .PARKING ∨ s.commanded = .PARKED then
      .ok (s.end_position, 0, .PARKED)
    else if s.commanded = .STOPPING ∨ s.commanded = .STOPPED then
      .ok (s.end_position, 0, .STOPPED)
    else
      let diff_since_crawl_started := tai - s.end_tai
      let calculation_position :=
        if s.commanded = .CRAWLING then s.start_position else s.end_position
      let position := calculation_position + s.crawl_velocity * diff_since_crawl_started
      if s.crawl_velocity = 0 then .ok (position, 0, .STOPPED)
      else .ok (position, s.crawl_velocity, .CRAWLING)
  else if tai < s.start_tai then .error .timeTravel
  else
    let frac_time := (tai - s.start_tai) / (s.end_tai - s.start_tai)
    let distance := getDistance s
    let position := s.start_position + distance * frac_time
    let velocity := if distance < 0 then -s.max_speed else s.max_speed
    if s.commanded = .PARKING then .ok (position, velocity, .PARKING)
    else if s.commanded = .STOPPING then .ok (position, 0, .STOPPED)
    else .ok (position, velocity, .MOVING)

/-- `AzimuthMotion.get_position_velocity_and_motion_state`, lines 136-185:
`rawEvaluate` with the returned position wrapped into [0, 2*pi). -/
noncomputable def evaluate (s : AzState) (tai : ℝ) :
    Except AzError (ℝ × ℝ × MotionState) :=
  (rawEvaluate s tai).map fun r => (wrap r.1, r.2.1, r.2.2)

/-- `AzimuthMotion.set_target_position_and_velocity`, lines 65-114. Returns
the duration together with the updated state. The two `ValueError`s are raised
before any attribute is assigned, so an error leaves the state unchanged. -/
noncomputable def setTarget (s : AzState) (start_tai end_position crawl_velocity : ℝ)
    (motion_state : MotionState) : Except AzError (ℝ × AzState) :=
  if s.max_speed < |crawl_velocity| then .error .crawlTooFast
  else if ¬(motion_state = .MOVING ∨ motion_state = .CRAWLING) then .error .badMotionState
  else
    let s1 : AzState :=
      { s with commanded := motion_state, start_tai := start_tai,
               end_position := end_position, crawl_velocity := crawl_velocity }
    let duration := getDuration s1
    .ok (duration, { s1 with end_tai := start_tai + duration })

/-- `AzimuthMotion.stop`, lines 187-204. Freezes the position evaluated at
`start_tai`; note that `_end_tai` is not assigned. -/
noncomputable def stop (s : AzState) (start_tai : ℝ) : Except AzError AzState :=
  (evaluate s start_tai).map fun r =>
    { s with start_tai := start_tai, start_position := r.1, end_position := r.1,
             crawl_velocity := 0, commanded := .STOPPING }

/-- `AzimuthMotion.park`, lines 206-225. Re-plans from the position evaluated
at `start_tai` toward end position 0 and returns the new `_end_tai`. -/
noncomputable def park (s : AzState) (start_tai : ℝ) : Except AzError (ℝ × AzState) :=
  (evaluate s start_tai).map fun r =>
    let s1 : AzState :=
      { s with start_tai := start_tai, start_position := r.1, end_position := 0,
               crawl_velocity := 0, commanded := .PARKING }
    let s2 : AzState := { s1 with end_tai := start_tai + getDuration s1 }
    (s2.end_tai, s2)

/-- Modelled from the spec: `BaseLlcMotion.__init__` is not under `src/`.
`AzimuthMotion.__init__` (lines 55-63) forwards `start_position`, `max_speed`
and `start_tai` to it; per the spec the engine starts in the rest phase
STOPPED at the given position and time, with no pending transit leg and zero
crawl velocity. -/
def initState (start_position max_speed start_tai : ℝ) : AzState :=
  { start_position := start_position, max_speed := max_speed,
    start_tai := start_tai, end_position := start_position,
    end_tai := start_tai, crawl_velocity := 0, commanded := .STOPPED }

/-- The engine states reachable from a constructor call through the public
commands. -/
inductive Reach : AzState → Prop where
  | init (p v t : ℝ) : Reach (initState p v t)
  | setTarget {s : AzState} (h : Reach s) {t ep cv : ℝ} {m : MotionState}
      {d : ℝ} {s2 : AzState} (hc : setTarget s t ep cv m = .ok (d, s2)) : Reach s2
  | stop {s : AzState} (h : Reach s) {t : ℝ} {s2 : AzState}
      (hc : stop s t = .ok s2) : Reach s2
  | park {s : AzState} (h : Reach s) {t e : ℝ} {s2 : AzState}
      (hc : park s t = .ok (e, s2)) : Reach s2

/-- The guard combination, in source order, under which
`get_position_velocity_and_motion_state` enters the in-transit branch of
lines 169-182 that divides by `end_tai - start_tai`. -/
def inTransit (s : AzState) (tai : ℝ) : Prop :=
  ¬(s.end_tai ≤ tai) ∧ ¬(tai < s.start_tai)

/-! ### A concrete command trace

Constructed at position 0, max speed 1, time 0; then commanded to move to
2 rad with zero crawl velocity; then stopped at time 10, well after the move
ends at time 2. -/

/-- The freshly constructed engine. -/
def azS0 : AzState := initState 0 1 0

/-- The engine after `set_target_position_and_velocity(0, 2, 0, MOVING)`. -/
def azS1 : AzState :=
  { start_position := 0, max_speed := 1, start_tai := 0, end_position := 2,
    end_tai := 2, crawl_velocity := 0, commanded := .MOVING }

/-- The engine after a further `stop(10)`: note `end_tai = 2 < 10 = start_tai`. -/
def azS2 : AzState :=
  { start_position := 2, max_speed := 1, start_tai := 10, end_position := 2,
    end_tai := 2, crawl_velocity := 0, commanded := .STOPPING }

/-- The engine after `set_target_position_and_velocity(1, 0, 0, MOVING)` issued
on `azS1` mid-move: `start_position` keeps its stale value 0. -/
def azS3 : AzState :=
  { start_position := 0, max_speed := 1, start_tai := 1, end_position := 0,
    end_tai := 1, crawl_velocity := 0, commanded := .MOVING }

/-- A pure-crawl engine: `azS0` after
`set_target_position_and_velocity(0, 0, 1/2, CRAWLING)`. -/
noncomputable def azS4 : AzState :=
  { start_position := 0, max_speed := 1, start_tai := 0, end_position := 0,
    end_tai := 0, crawl_velocity := 1/2, commanded := .CRAWLING }

/-! ## The legacy time-stepped status aggregator (`AmcsStatus`) -/

/-- A Python float restricted to the values `amcs_status.py` actually
produces: a finite (here: rational) value or one of the two infinities
`math.inf` and `-math.inf`. -/
inductive ExtQ where
  | fin (q : ℚ)
  | pinf
  | minf
  deriving DecidableEq, Repr

/-- Addition of a finite value to an extended value, as float addition
behaves on these operands. -/
def ExtQ.addQ : ExtQ → ℚ → ExtQ
  | .fin a, b => .fin (a + b)
  | .pinf, _ => .pinf
  | .minf, _ => .minf

/-- Float comparison `a <= b` on the values above (no NaN involved). -/
def ExtQ.ble : ExtQ → ExtQ → Bool
  | .minf, _ => true
  | .fin a, .fin b => decide (a ≤ b)
  | .fin _, .pinf => true
  | .fin _, .minf => false
  | .pinf, .pinf => true
  | .pinf, .fin _ => false
  | .pinf, .minf => false

/-- Float comparison `a < b`: on a total order without NaN this is the
negation of `b <= a`. -/
def ExtQ.blt (a b : ExtQ) : Bool := !(ExtQ.ble b a)

/-- Whether an extended value is finite. -/
def ExtQ.isFinite : ExtQ → Prop
  | .fin _ => True
  | _ => False

/-- The attributes of an `AmcsStatus` instance that participate in its motion
logic, from `amcs_status.py` lines 43-74. The constant per-motor arrays
(torque, current, temperature, encoders, resolvers) and the assembled
`llc_status` dictionary are pure telemetry output copied from these fields
and are not modelled; the `error` list is the constant `["No Error"]`. -/
structure AmcsStatus where
  vmax : ℚ
  motion_velocity : ℚ
  crawl_velocity : ℚ
  status : MotionState
  fans_enabled : Bool
  seal_inflated : Bool
  position_orig : ExtQ
  position_actual : ExtQ
  position_commanded : ExtQ
  velocity_actual : ℚ
  velocity_commanded : ℚ
  command_time_tai : ℚ
  deriving DecidableEq, Repr

/-- The errors `determine_status` can raise (lines 129 and 134). -/
inductive AmcsError where
  | beyondCrawlLimit
  | unknownState
  deriving DecidableEq, Repr

/-- `AmcsStatus.__init__`, lines 43-74. Modelled from the spec for the two
values not under `src/`: `vmax` comes from the `AmcsLimits` configuration of
physical limits, and `command_time_tai` is inherited from
`BaseMockStatus.__init__`; both are taken as parameters here. -/
def AmcsStatus.init (vmax t0 : ℚ) : AmcsStatus :=
  { vmax := vmax, motion_velocity := 0, crawl_velocity := 0,
    status := .STOPPED, fans_enabled := false, seal_inflated := false,
    position_orig := .fin 0, position_actual := .fin 0,
    position_commanded := .fin 0, velocity_actual := 0,
    velocity_commanded := 0, command_time_tai := t0 }

/-- `AmcsStatus.moveAz`, lines 161-184. `salobj.current_tai()` is passed in
as `now`. -/
def AmcsStatus.moveAz (s : AmcsStatus) (position velocity now : ℚ) : AmcsStatus :=
  let s1 : AmcsStatus :=
    { s with status := .MOVING, position_orig := s.position_actual,
             command_time_tai := now, position_commanded := .fin position,
             crawl_velocity := velocity, motion_velocity := s.vmax }
  if ExtQ.blt s1.position_commanded s1.position_actual
  then { s1 with motion_velocity := -s.vmax } else s1

/-- `AmcsStatus.crawlAz`, lines 186-204: note that the velocity is not
validated against any limit. -/
def AmcsStatus.crawlAz (s : AmcsStatus) (velocity now : ℚ) : AmcsStatus :=
  let s1 : AmcsStatus :=
    { s with position_orig := s.position_actual, command_time_tai := now,
             motion_velocity := velocity, status := .CRAWLING }
  if 0 ≤ velocity then { s1 with position_commanded := .pinf }
  else { s1 with position_commanded := .minf }

/-- `AmcsStatus.stopAz`, lines 206-209. -/
def AmcsStatus.stopAz (s : AmcsStatus) (now : ℚ) : AmcsStatus :=
  { s with command_time_tai := now, status := .STOPPED }

/-- `AmcsStatus.park`, lines 211-217. -/
def AmcsStatus.park (s : AmcsStatus) (now : ℚ) : AmcsStatus :=
  { s with status := .PARKING, position_orig := s.position_actual,
           command_time_tai := now, position_commanded := .fin 0,
           motion_velocity := -s.vmax }

/-- `AmcsStatus.inflate`, lines 219-232; the ON/OFF string is pre-validated
by the caller per the spec, so it arrives as a Boolean. -/
def AmcsStatus.inflate (s : AmcsStatus) (action : Bool) (now : ℚ) : AmcsStatus :=
  { s with command_time_tai := now, seal_inflated := action }

/-- `AmcsStatus.fans`, lines 234-247. -/
def AmcsStatus.fans (s : AmcsStatus) (action : Bool) (now : ℚ) : AmcsStatus :=
  { s with command_time_tai := now, fans_enabled := action }

/-- `AmcsStatus.determine_status`, lines 76-159: the motion update and
boundary checks. The assembly of the telemetry dictionary from the resulting
fields is omitted (it feeds nothing back into the state). The two `raise
ValueError` statements become the two error results. -/
def AmcsStatus.determine_status (s : AmcsStatus) (current_tai : ℚ) :
    Except AmcsError AmcsStatus :=
  let time_diff := current_tai - s.command_time_tai
  if s.status = .STOPPED then .ok s
  else
    let azimuth_step := s.motion_velocity * time_diff
    let s1 : AmcsStatus := { s with position_actual := s.position_orig.addQ azimuth_step }
    if (decide (0 < s1.motion_velocity) && ExtQ.ble s1.position_commanded s1.position_actual)
        || (decide (s1.motion_velocity < 0) && ExtQ.ble s1.position_actual s1.position_commanded) then
      let s2 : AmcsStatus := { s1 with position_actual := s1.position_commanded }
      if s2.status = .MOVING then
        if 0 < s2.crawl_velocity then
          .ok { s2 with position_commanded := .pinf,
                        motion_velocity := s2.crawl_velocity, status := .CRAWLING }
        else if s2.crawl_velocity < 0 then
          .ok { s2 with position_commanded := .minf,
                        motion_velocity := s2.crawl_velocity, status := .CRAWLING }
        else
          .ok { s2 with position_commanded := s2.position_actual,
                        motion_velocity := s2.crawl_velocity, status := .STOPPED }
      else if s2.status = .PARKING then
        .ok { s2 with position_commanded := s2.position_actual,
                      motion_velocity := 0, status := .PARKED }
      else if s2.status = .CRAWLING then
        .error .beyondCrawlLimit
      else
        .error .unknownState
    else .ok s1

/-- The aggregator states reachable from a constructor call by any sequence
of commands and successful `determine_status` cycles. -/
inductive AmcsReach : AmcsStatus → Prop where
  | init (vmax t0 : ℚ) : AmcsReach (AmcsStatus.init vmax t0)
  | moveAz {s : AmcsStatus} (h : AmcsReach s) (position velocity now : ℚ) :
      AmcsReach (s.moveAz position velocity now)
  | crawlAz {s : AmcsStatus} (h : AmcsReach s) (velocity now : ℚ) :
      AmcsReach (s.crawlAz velocity now)
  | stopAz {s : AmcsStatus} (h : AmcsReach s) (now : ℚ) : AmcsReach (s.stopAz now)
  | park {s : AmcsStatus} (h : AmcsReach s) (now : ℚ) : AmcsReach (s.park now)
  | inflate {s : AmcsStatus} (h : AmcsReach s) (action : Bool) (now : ℚ) :
      AmcsReach (s.inflate action now)
  | fans {s : AmcsStatus} (h : AmcsReach s) (action : Bool) (now : ℚ) :
      AmcsReach (s.fans action now)
  | determine {s : AmcsStatus} (h : AmcsReach s) {now : ℚ} {s2 : AmcsStatus}
      (hc : s.determine_status now = .ok s2) : AmcsReach s2

/-- The state invariant maintained by all aggregator transitions: actual and
original positions stay finite, a commanded position is finite while MOVING
or PARKING, matches the motion direction at infinity while CRAWLING, the
motion velocity is zero once PARKED, and STOPPING never occurs. -/
def AmcsStatus.inv (s : AmcsStatus) : Prop :=
  s.position_actual.isFinite ∧ s.position_orig.isFinite ∧
  (s.status = MotionState.MOVING → s.position_commanded.isFinite) ∧
  (s.status = MotionState.PARKING → s.position_commanded.isFinite) ∧
  (s.status = MotionState.CRAWLING →
    (0 ≤ s.motion_velocity → s.position_commanded = ExtQ.pinf) ∧
    (s.motion_velocity < 0 → s.position_commanded = ExtQ.minf)) ∧
  (s.status = MotionState.PARKED → s.motion_velocity = 0) ∧
  s.status ≠ MotionState.STOPPING

/-- The boundary check of `determine_status` (lines 90-100) expressed as a
predicate on the pre-cycle state: the motion block is entered and one of the
two velocity/overshoot conditions holds for the stepped actual position. -/
def boundaryFires (s : AmcsStatus) (current_tai : ℚ) : Prop :=
  s.status ≠ MotionState.STOPPED ∧
  ((decide (0 < s.motion_velocity) && ExtQ.ble s.position_commanded
      (s.position_orig.addQ (s.motion_velocity * (current_tai - s.command_time_tai))))
    || (decide (s.motion_velocity < 0) && ExtQ.ble
      (s.position_orig.addQ (s.motion_velocity * (current_tai - s.command_time_tai)))
      s.position_commanded)) = true

/-- Equality of `determine_status` outcomes is decidable, so concrete
before/after queries can be compared by evaluation. -/
instance : DecidableEq (Except AmcsError AmcsStatus) := fun a b =>
  match a, b with
  | .ok x, .ok y =>
      if h : x = y then .isTrue (by rw [h]) else .isFalse (fun hh => h (Except.ok.inj hh))
  | .error x, .error y =>
      if h : x = y then .isTrue (by rw [h]) else .isFalse (fun hh => h (Except.error.inj hh))
  | .ok x, .error y => .isFalse (fun hh => by cases hh)
  | .error x, .ok y => .isFalse (fun hh => by cases hh)

/-! ### Basic facts about the angle wrap -/

theorem twoPi_pos : (0 : ℝ) < twoPi := by
  have := Real.pi_pos
  unfold twoPi
  linarith

theorem wrap_eq_fract (x : ℝ) : wrap x = twoPi * Int.fract (x / twoPi) := by
  have hne : twoPi ≠ 0 := ne_of_gt twoPi_pos
  unfold wrap Int.fract
  field_simp

theorem wrap_nonneg (x : ℝ) : 0 ≤ wrap x := by
  rw [wrap_eq_fract]
  exact mul_nonneg (le_of_lt twoPi_pos) (Int.fract_nonneg _)

theorem wrap_lt (x : ℝ) : wrap x < twoPi := by
  rw [wrap_eq_fract]
  have h1 : Int.fract (x / twoPi) < 1 := Int.fract_lt_one _
  calc twoPi * Int.fract (x / twoPi) < twoPi * 1 :=
        (mul_lt_mul_left twoPi_pos).mpr h1
    _ = twoPi := mul_one _

theorem wrap_add_int_mul (x : ℝ) (k : ℤ) : wrap (x + twoPi * k) = wrap x := by
  have hne : twoPi ≠ 0 := ne_of_gt twoPi_pos
  rw [wrap_eq_fract, wrap_eq_fract]
  have h1 : (x + twoPi * k) / twoPi = x / twoPi + k := by
    field_simp
    ring
  rw [h1, Int.fract_add_int]

theorem wrap_eq_self {x : ℝ} (h0 : 0 ≤ x) (h1 : x < twoPi) : wrap x = x := by
  have hfloor : ⌊x / twoPi⌋ = 0 := by
    apply Int.floor_eq_zero_iff.mpr
    constructor
    · exact div_nonneg h0 (le_of_lt twoPi_pos)
    · rw [div_lt_one twoPi_pos]
      exact h1
  unfold wrap
  rw [hfloor]
  simp

theorem wrap_wrap (x : ℝ) : wrap (wrap x) = wrap x :=
  wrap_eq_self (wrap_nonneg x) (wrap_lt x)

theorem lt_twoPi_of_lt_six {x : ℝ} (h : x < 6) : x < twoPi := by
  have h3 := Real.pi_gt_three
  unfold twoPi
  linarith

/-! ### Helper lemmas about the engine -/

theorem rawEvaluate_total (s : AzState) (tai : ℝ) :
    (tai < s.start_tai ∧ tai < s.end_tai ∧ rawEvaluate s tai = .error .timeTravel) ∨
      ∃ r, rawEvaluate s tai = .ok r := by
  unfold rawEvaluate
  by_cases hend : s.end_tai ≤ tai
  · right
    simp only [if_pos hend]
    by_cases h1 : s.commanded = .PARKING ∨ s.commanded = .PARKED
    · rw [if_pos h1]
      exact ⟨_, rfl⟩
    · rw [if_neg h1]
      by_cases h2 : s.commanded = .STOPPING ∨ s.commanded = .STOPPED
      · rw [if_pos h2]
        exact ⟨_, rfl⟩
      · rw [if_neg h2]
        by_cases h3 : s.crawl_velocity = 0
        · simp only [if_pos h3]
          exact ⟨_, rfl⟩
        · simp only [if_neg h3]
          exact ⟨_, rfl⟩
  · rw [if_neg hend]
    by_cases hstart : tai < s.start_tai
    · left
      exact ⟨hstart, lt_of_not_le hend, by rw [if_pos hstart]⟩
    · right
      rw [if_neg hstart]
      by_cases h1 : s.commanded = .PARKING
      · simp only [if_pos h1]
        exact ⟨_, rfl⟩
      · simp only [if_neg h1]
        by_cases h2 : s.commanded = .STOPPING
        · simp only [if_pos h2]
          exact ⟨_, rfl⟩
        · simp only [if_neg h2]
          exact ⟨_, rfl⟩

theorem rawEvaluate_ok_of_start_le (s : AzState) (tai : ℝ) (h : s.start_tai ≤ tai) :
    ∃ r, rawEvaluate s tai = .ok r := by
  rcases rawEvaluate_total s tai with ⟨h1, _, _⟩ | hok
  · exact absurd h (not_le.mpr h1)
  · exact hok

theorem evaluate_of_raw {s : AzState} {tai : ℝ} {r : ℝ × ℝ × MotionState}
    (h : rawEvaluate s tai = .ok r) :
    evaluate s tai = .ok (wrap r.1, r.2.1, r.2.2) := by
  unfold evaluate
  rw [h]
  rfl

theorem evaluate_ok_range {s : AzState} {tai : ℝ} {p v : ℝ} {m : MotionState}
    (h : evaluate s tai = .ok (p, v, m)) : 0 ≤ p ∧ p < twoPi := by
  unfold evaluate at h
  cases hr : rawEvaluate s tai with
  | error e => rw [hr] at h; exact absurd h (by simp [Except.map])
  | ok r =>
      rw [hr] at h
      simp only [Except.map, Except.ok.injEq, Prod.mk.injEq] at h
      rw [← h.1]
      exact ⟨wrap_nonneg _, wrap_lt _⟩

/-- In a state commanded STOPPING whose start and end positions coincide, the
raw evaluation at any time at or after the start time returns the frozen
position with zero velocity in state STOPPED. -/
theorem rawEval_post_stopping {s : AzState} (hcm : s.commanded = .STOPPING)
    (hdist : s.end_position = s.start_position) {tai : ℝ} (hstart : s.start_tai ≤ tai) :
    rawEvaluate s tai = .ok (s.end_position, 0, .STOPPED) := by
  unfold rawEvaluate
  rw [hcm]
  by_cases hend : s.end_tai ≤ tai
  · simp [hend]
  · simp [hend, not_lt.mpr hstart, getDistance, hdist]

/-- After a `stop`, every query at or after the stop time returns the frozen
wrapped position with zero velocity in state STOPPED. -/
theorem eval_stopped_state (s : AzState) (p t : ℝ) (hp0 : 0 ≤ p) (hp1 : p < twoPi)
    (tai : ℝ) (ht : t ≤ tai) :
    evaluate { s with start_tai := t, start_position := p, end_position := p,
                      crawl_velocity := 0, commanded := .STOPPING } tai =
      .ok (p, 0, .STOPPED) := by
  have hraw := @rawEval_post_stopping
    { s with start_tai := t, start_position := p, end_position := p,
             crawl_velocity := 0, commanded := .STOPPING }
    rfl rfl tai ht
  rw [evaluate_of_raw hraw]
  show Except.ok (wrap p, 0, MotionState.STOPPED) = _
  rw [wrap_eq_self hp0 hp1]

theorem wrap_zero : wrap 0 = 0 :=
  wrap_eq_self le_rfl twoPi_pos

theorem wrap_one : wrap 1 = 1 :=
  wrap_eq_self (by norm_num) (lt_twoPi_of_lt_six (by norm_num))

theorem wrap_two : wrap 2 = 2 :=
  wrap_eq_self (by norm_num) (lt_twoPi_of_lt_six (by norm_num))

theorem azStep01 : setTarget azS0 0 2 0 .MOVING = .ok (2, azS1) := by
  unfold setTarget azS0 initState azS1 getDuration getDistance
  norm_num
  decide

theorem azEval1at10 : evaluate azS1 10 = .ok (2, 0, .STOPPED) := by
  unfold evaluate rawEvaluate azS1
  norm_num [Except.map]
  simp [wrap_two]

theorem azStep12 : stop azS1 10 = .ok azS2 := by
  unfold stop
  rw [azEval1at10]
  rfl

theorem azEval1at1 : evaluate azS1 1 = .ok (1, 1, .MOVING) := by
  unfold evaluate rawEvaluate azS1 getDistance
  norm_num [Except.map]
  simp [wrap_one]

theorem azStep13 : setTarget azS1 1 0 0 .MOVING = .ok (0, azS3) := by
  unfold setTarget azS1 azS3 getDuration getDistance
  norm_num

theorem azEval3at1 : evaluate azS3 1 = .ok (0, 0, .STOPPED) := by
  unfold evaluate rawEvaluate azS3
  norm_num [Except.map]
  simp [wrap_zero]

theorem azEval2at5 : evaluate azS2 5 = .ok (2, 0, .STOPPED) := by
  unfold evaluate rawEvaluate azS2
  norm_num [Except.map]
  simp [wrap_two]

theorem azStep04 : setTarget azS0 0 0 (1/2) .CRAWLING = .ok (0, azS4) := by
  unfold setTarget azS0 initState azS4 getDuration getDistance
  rw [abs_of_pos (by norm_num : (0:ℝ) < 1/2)]
  norm_num

theorem azReach1 : Reach azS1 :=
  Reach.setTarget (Reach.init 0 1 0) azStep01

theorem azReach4 : Reach azS4 :=
  Reach.setTarget (Reach.init 0 1 0) azStep04

theorem azReach2 : Reach azS2 :=
  Reach.stop azReach1 azStep12

theorem azEval0at0 : evaluate azS0 0 = .ok (0, 0, .STOPPED) := by
  unfold evaluate rawEvaluate azS0 initState
  norm_num [Except.map]
  simp [wrap_zero]

theorem getDuration_nonneg (s : AzState) (h : 0 ≤ s.max_speed) : 0 ≤ getDuration s := by
  unfold getDuration
  split
  · exact le_refl 0
  · exact div_nonneg (abs_nonneg _) h

/-! ## Claims C1, C2, C4, C8, C9 -/

/-- Claim C1, counterexample: the state `azS2`, reached by a `stop` issued at
time 10 after the move had ended at time 2, is queried at time 5 < start_tai
and returns a position/velocity/phase result instead of failing. -/
theorem claim1_counterexample :
    Reach azS2 ∧ (5 : ℝ) < azS2.start_tai ∧ evaluate azS2 5 = .ok (2, 0, .STOPPED) :=
  ⟨azReach2, by norm_num [azS2], azEval2at5⟩

/-- Claim C1, amended: `evaluate` fails with the time-travel error exactly on
the queries that precede both `start_tai` and `end_tai`; a query with
`end_tai ≤ tai < start_tai` (a state left by a stop issued after `end_tai`)
instead succeeds, because the source checks `tai >= end_tai` first. -/
theorem claim1_time_travel (s : AzState) (tai : ℝ)
    (h1 : tai < s.start_tai) (h2 : tai < s.end_tai) :
    evaluate s tai = .error .timeTravel := by
  have hraw : rawEvaluate s tai = .error .timeTravel := by
    unfold rawEvaluate
    rw [if_neg (not_le.mpr h2), if_pos h1]
  unfold evaluate
  rw [hraw]
  rfl

/-- Witness for the amended claim C1 at a concrete engine and query time. -/
theorem claim1_witness :
    (1 : ℝ) < (initState 0 1 5).start_tai ∧ (1 : ℝ) < (initState 0 1 5).end_tai ∧
      evaluate (initState 0 1 5) 1 = .error .timeTravel :=
  ⟨by norm_num [initState], by norm_num [initState],
    claim1_time_travel _ _ (by norm_num [initState]) (by norm_num [initState])⟩

/-- Claim C2, counterexample: `stop(10)` on the reachable state `azS1` (whose
move ended at time 2) leaves `end_tai = 2`: it neither equals the issue time
10 nor satisfies `end_time ≥ start_time`. -/
theorem claim2_counterexample :
    Reach azS1 ∧ stop azS1 10 = .ok azS2 ∧ azS2.end_tai ≠ 10 ∧
      azS2.end_tai < azS2.start_tai :=
  ⟨azReach1, azStep12, by norm_num [azS2], by norm_num [azS2]⟩

/-- Claim C2, amended: `set_target` and `park` derive `end_tai = start_tai +
duration` with a non-negative duration (for a non-negative configured maximum
speed), so they establish `start_time ≤ end_time`; `stop` however does not
assign `end_tai` at all, leaving the previous value in place. -/
theorem claim2_end_time (s : AzState) (h : 0 ≤ s.max_speed) :
    (∀ t ep cv m d s2, setTarget s t ep cv m = .ok (d, s2) →
      0 ≤ d ∧ s2.start_tai = t ∧ s2.end_tai = t + d) ∧
    (∀ t e s2, park s t = .ok (e, s2) → s2.start_tai = t ∧ s2.start_tai ≤ s2.end_tai) ∧
    (∀ t s2, stop s t = .ok s2 → s2.end_tai = s.end_tai ∧ s2.start_tai = t) := by
  refine ⟨?_, ?_, ?_⟩
  · intro t ep cv m d s2 hc
    unfold setTarget at hc
    by_cases hv : s.max_speed < |cv|
    · rw [if_pos hv] at hc
      exact absurd hc (by simp)
    · rw [if_neg hv] at hc
      by_cases hm : ¬(m = .MOVING ∨ m = .CRAWLING)
      · rw [if_pos hm] at hc
        exact absurd hc (by simp)
      · rw [if_neg hm] at hc
        simp only [Except.ok.injEq, Prod.mk.injEq] at hc
        obtain ⟨hd, hs2⟩ := hc
        subst hs2
        refine ⟨?_, rfl, by rw [hd]⟩
        rw [← hd]
        exact getDuration_nonneg _ h
  · intro t e s2 hc
    unfold park at hc
    cases hev : evaluate s t with
    | error err =>
        rw [hev] at hc
        exact absurd hc (by simp [Except.map])
    | ok r =>
        rw [hev] at hc
        simp only [Except.map, Except.ok.injEq, Prod.mk.injEq] at hc
        obtain ⟨he, hs2⟩ := hc
        subst hs2
        refine ⟨rfl, ?_⟩
        have hd := getDuration_nonneg { s with start_tai := t, start_position := r.1, end_position := 0, crawl_velocity := 0, commanded := MotionState.PARKING } h
        exact le_add_of_nonneg_right hd
  · intro t s2 hc
    unfold stop at hc
    cases hev : evaluate s t with
    | error err =>
        rw [hev] at hc
        exact absurd hc (by simp [Except.map])
    | ok r =>
        rw [hev] at hc
        simp only [Except.map, Except.ok.injEq] at hc
        subst hc
        exact ⟨rfl, rfl⟩

/-- Witness for the amended claim C2: the concrete `set_target` step from the
trace, with duration 2 and `end_tai = 0 + 2`. -/
theorem claim2_witness :
    0 ≤ azS0.max_speed ∧ (0 ≤ (2 : ℝ) ∧ azS1.start_tai = 0 ∧ azS1.end_tai = 0 + 2) :=
  ⟨by norm_num [azS0, initState],
    (claim2_end_time azS0 (by norm_num [azS0, initState])).1 0 2 0 .MOVING 2 azS1 azStep01⟩

/-- Claim C4: a `stop` issued at any time `t` at or after the engine's
`start_tai` succeeds, and every later query returns phase STOPPED, velocity 0
and the position that was evaluated at `t`, frozen. -/
theorem claim4_stop_freezes (s : AzState) (t : ℝ) (h : s.start_tai ≤ t) :
    ∃ p v m s2, evaluate s t = .ok (p, v, m) ∧ stop s t = .ok s2 ∧
      ∀ tai, t ≤ tai → evaluate s2 tai = .ok (p, 0, .STOPPED) := by
  obtain ⟨r, hr⟩ := rawEvaluate_ok_of_start_le s t h
  have hev := evaluate_of_raw hr
  refine ⟨wrap r.1, r.2.1, r.2.2,
    { s with start_tai := t, start_position := wrap r.1, end_position := wrap r.1,
             crawl_velocity := 0, commanded := .STOPPING }, hev, ?_, ?_⟩
  · unfold stop
    rw [hev]
    rfl
  · intro tai htai
    exact eval_stopped_state s (wrap r.1) t (wrap_nonneg _) (wrap_lt _) tai htai

/-- Witness for claim C4: stopping the freshly constructed engine at time 0. -/
theorem claim4_witness :
    azS0.start_tai ≤ 0 ∧ ∃ p v m s2, evaluate azS0 0 = .ok (p, v, m) ∧
      stop azS0 0 = .ok s2 ∧ ∀ tai, (0 : ℝ) ≤ tai → evaluate s2 tai = .ok (p, 0, .STOPPED) :=
  ⟨by norm_num [azS0, initState], claim4_stop_freezes azS0 0 (by norm_num [azS0, initState])⟩

/-- Claim C8: the angle wrap lands in [0, 2*pi) for every real input, is
invariant under adding whole turns, and therefore every position returned by
`evaluate` lies in [0, 2*pi). -/
theorem claim8_wrap :
    (∀ x : ℝ, 0 ≤ wrap x ∧ wrap x < twoPi) ∧
    (∀ (x : ℝ) (k : ℤ), wrap (x + twoPi * k) = wrap x) ∧
    (∀ (s : AzState) (tai p v : ℝ) (m : MotionState),
      evaluate s tai = .ok (p, v, m) → 0 ≤ p ∧ p < twoPi) :=
  ⟨fun x => ⟨wrap_nonneg x, wrap_lt x⟩, wrap_add_int_mul,
    fun _ _ _ _ _ h => evaluate_ok_range h⟩

/-- Witness for claim C8 at a concrete successful evaluation. -/
theorem claim8_witness :
    evaluate azS0 0 = .ok (0, 0, .STOPPED) ∧ (0 ≤ (0 : ℝ) ∧ (0 : ℝ) < twoPi) :=
  ⟨azEval0at0, claim8_wrap.2.2 azS0 0 0 0 .STOPPED azEval0at0⟩

/-- Claim C9: the in-transit branch is entered only when
`start_tai ≤ tai < end_tai`, so its divisor `end_tai - start_tai` is strictly
positive there; and evaluation is total apart from the declared time-travel
failure. -/
theorem claim9_divisor (s : AzState) (tai : ℝ) :
    (inTransit s tai → 0 < s.end_tai - s.start_tai ∧ ∃ r, rawEvaluate s tai = .ok r) ∧
    ((∃ r, rawEvaluate s tai = .ok r) ∨
      (tai < s.start_tai ∧ tai < s.end_tai ∧ rawEvaluate s tai = .error .timeTravel)) := by
  constructor
  · rintro ⟨hend, hstart⟩
    have h1 : s.start_tai ≤ tai := not_lt.mp hstart
    have h2 : tai < s.end_tai := lt_of_not_le hend
    exact ⟨by linarith, rawEvaluate_ok_of_start_le s tai h1⟩
  · rcases rawEvaluate_total s tai with ⟨ha, hb, hcq⟩ | hok
    · right
      exact ⟨ha, hb, hcq⟩
    · left
      exact hok

/-- Witness for claim C9: the mid-move state `azS1` queried at time 1 is in
transit and its divisor is 2. -/
theorem claim9_witness :
    inTransit azS1 1 ∧ (0 < azS1.end_tai - azS1.start_tai ∧ ∃ r, rawEvaluate azS1 1 = .ok r) :=
  ⟨by constructor <;> norm_num [azS1],
    (claim9_divisor azS1 1).1 (by constructor <;> norm_num [azS1])⟩

/-! ## Claims C3, C6, C7 -/

/-- Claim C3, counterexample: on the reachable mid-move state `azS1` the
pre-command position at time 1 is 1, but a `set_target` issued at time 1 does
not refresh `start_position`, so the immediate re-query returns the stale
position 0. -/
theorem claim3_counterexample :
    Reach azS1 ∧ evaluate azS1 1 = .ok (1, 1, .MOVING) ∧
      setTarget azS1 1 0 0 .MOVING = .ok (0, azS3) ∧
      evaluate azS3 1 = .ok (0, 0, .STOPPED) ∧ (1 : ℝ) ≠ 0 :=
  ⟨azReach1, azEval1at1, azStep13, azEval3at1, by norm_num⟩

/-- Claim C3, amended: continuity at command issuance holds for `stop` and
(for a positive maximum speed) for `park`, which both re-plan from the
position evaluated at the issue time; `set_target` does not refresh
`start_position`, so its re-query returns the stale start position instead. -/
theorem claim3_continuity (s : AzState) (t p v : ℝ) (m : MotionState)
    (hev : evaluate s t = .ok (p, v, m)) :
    (∀ s2, stop s t = .ok s2 → ∃ v2 m2, evaluate s2 t = .ok (p, v2, m2)) ∧
    (0 < s.max_speed → ∀ e s2, park s t = .ok (e, s2) →
      ∃ v2 m2, evaluate s2 t = .ok (p, v2, m2)) := by
  have hp := evaluate_ok_range hev
  constructor
  · intro s2 hc
    unfold stop at hc
    rw [hev] at hc
    simp only [Except.map, Except.ok.injEq] at hc
    subst hc
    exact ⟨0, .STOPPED, eval_stopped_state s p t hp.1 hp.2 t le_rfl⟩
  · intro hms e s2 hc
    unfold park at hc
    rw [hev] at hc
    simp only [Except.map, Except.ok.injEq, Prod.mk.injEq] at hc
    obtain ⟨he, hs2⟩ := hc
    subst hs2
    set s1 : AzState := { s with start_tai := t, start_position := p, end_position := 0, crawl_velocity := 0, commanded := MotionState.PARKING } with hs1
    have hgd : getDuration s1 = |0 - p| / s.max_speed := by
      rw [hs1]
      unfold getDuration getDistance
      split
      · rename_i hx
        exact absurd hx (by simp)
      · rfl
    have habs : |(0 : ℝ) - p| = p := by
      rw [zero_sub, abs_neg, abs_of_nonneg hp.1]
    by_cases hend : t + getDuration s1 ≤ t
    · have hd0 : getDuration s1 = 0 :=
        le_antisymm (by linarith) (getDuration_nonneg s1 hms.le)
      have hp0 : p = 0 := by
        rw [hgd, habs] at hd0
        rcases div_eq_zero_iff.mp hd0 with h0 | h0
        · exact h0
        · exact absurd h0 (ne_of_gt hms)
      refine ⟨0, .PARKED, ?_⟩
      have hraw : rawEvaluate { s1 with end_tai := t + getDuration s1 } t =
          .ok (0, 0, .PARKED) := by
        unfold rawEvaluate
        rw [if_pos (show ({ s1 with end_tai := t + getDuration s1 } : AzState).end_tai ≤ t from hend)]
        rw [if_pos (Or.inl (rfl : ({ s1 with end_tai := t + getDuration s1 } : AzState).commanded = .PARKING))]
      rw [evaluate_of_raw hraw]
      rw [hp0, wrap_zero]
    · refine ⟨s.max_speed * (if (0:ℝ) - p < 0 then -1 else 1), .PARKING, ?_⟩
      have hstart : ¬(t < ({ s1 with end_tai := t + getDuration s1 } : AzState).start_tai) :=
        lt_irrefl t
      have hraw : rawEvaluate { s1 with end_tai := t + getDuration s1 } t =
          .ok (p, s.max_speed * (if (0:ℝ) - p < 0 then -1 else 1), .PARKING) := by
        unfold rawEvaluate
        rw [if_neg (show ¬(({ s1 with end_tai := t + getDuration s1 } : AzState).end_tai ≤ t) from hend)]
        rw [if_neg hstart]
        rw [if_pos (rfl : ({ s1 with end_tai := t + getDuration s1 } : AzState).commanded = .PARKING)]
        have hpos : ({ s1 with end_tai := t + getDuration s1 } : AzState).start_position +
            getDistance { s1 with end_tai := t + getDuration s1 } *
              ((t - ({ s1 with end_tai := t + getDuration s1 } : AzState).start_tai) /
               (({ s1 with end_tai := t + getDuration s1 } : AzState).end_tai -
                ({ s1 with end_tai := t + getDuration s1 } : AzState).start_tai)) = p := by
          show p + getDistance s1 * ((t - t) / (t + getDuration s1 - t)) = p
          rw [sub_self, zero_div, mul_zero, add_zero]
        rw [hpos]
        have hvel : (if getDistance { s1 with end_tai := t + getDuration s1 } < 0
            then -({ s1 with end_tai := t + getDuration s1 } : AzState).max_speed
            else ({ s1 with end_tai := t + getDuration s1 } : AzState).max_speed) =
            s.max_speed * (if (0:ℝ) - p < 0 then -1 else 1) := by
          show (if (0:ℝ) - p < 0 then -s.max_speed else s.max_speed) = _
          split <;> ring
        rw [hvel]
      rw [evaluate_of_raw hraw]
      rw [wrap_eq_self hp.1 hp.2]

/-- Witness for the amended claim C3: stopping the trace's mid-move engine at
time 10 re-queries to the same position 2. -/
theorem claim3_witness :
    evaluate azS1 10 = .ok (2, 0, .STOPPED) ∧
      ∃ v2 m2, evaluate azS2 10 = .ok (2, v2, m2) :=
  ⟨azEval1at10, (claim3_continuity azS1 10 2 0 .STOPPED azEval1at10).1 azS2 azStep12⟩

/-- Claim C6: `park` issued at or after `start_tai` re-plans from the position
evaluated at the issue time, targets end position 0 with zero crawl velocity
in commanded phase PARKING, returns the new `end_tai`, and every query at or
after that time reports position 0, velocity 0, phase PARKED. -/
theorem claim6_park (s : AzState) (t : ℝ) (h : s.start_tai ≤ t) :
    ∃ p v m e s2, evaluate s t = .ok (p, v, m) ∧ park s t = .ok (e, s2) ∧
      s2.start_position = p ∧ s2.end_position = 0 ∧ s2.crawl_velocity = 0 ∧
      s2.commanded = .PARKING ∧ e = s2.end_tai ∧
      ∀ tai, e ≤ tai → evaluate s2 tai = .ok (0, 0, .PARKED) := by
  obtain ⟨r, hr⟩ := rawEvaluate_ok_of_start_le s t h
  have hev := evaluate_of_raw hr
  set s1 : AzState := { s with start_tai := t, start_position := wrap r.1, end_position := 0, crawl_velocity := 0, commanded := MotionState.PARKING } with hs1
  refine ⟨wrap r.1, r.2.1, r.2.2, t + getDuration s1,
    { s1 with end_tai := t + getDuration s1 }, hev, ?_, rfl, rfl, rfl, rfl, rfl, ?_⟩
  · unfold park
    rw [hev]
    rfl
  · intro tai htai
    have hraw : rawEvaluate { s1 with end_tai := t + getDuration s1 } tai =
        .ok (0, 0, .PARKED) := by
      unfold rawEvaluate
      rw [if_pos (show ({ s1 with end_tai := t + getDuration s1 } : AzState).end_tai ≤ tai from htai)]
      rw [if_pos (Or.inl (rfl : ({ s1 with end_tai := t + getDuration s1 } : AzState).commanded = .PARKING))]
    rw [evaluate_of_raw hraw]
    rw [wrap_zero]

/-- Witness for claim C6: parking the freshly constructed engine at time 0. -/
theorem claim6_witness :
    azS0.start_tai ≤ 0 ∧ ∃ p v m e s2, evaluate azS0 0 = .ok (p, v, m) ∧
      park azS0 0 = .ok (e, s2) ∧ s2.start_position = p ∧ s2.end_position = 0 ∧
      s2.crawl_velocity = 0 ∧ s2.commanded = .PARKING ∧ e = s2.end_tai ∧
      ∀ tai, e ≤ tai → evaluate s2 tai = .ok (0, 0, .PARKED) :=
  ⟨by norm_num [azS0, initState], claim6_park azS0 0 (by norm_num [azS0, initState])⟩

/-- In every reachable state the crawl velocity is nonzero only under a MOVING
or CRAWLING command: `stop` and `park` zero it and the constructor starts it
at zero. -/
theorem reach_crawl_commanded {s : AzState} (hr : Reach s) :
    s.commanded = .MOVING ∨ s.commanded = .CRAWLING ∨ s.crawl_velocity = 0 := by
  induction hr with
  | init p v t => exact Or.inr (Or.inr rfl)
  | setTarget h hc ih =>
      rename_i s t ep cv m d s2
      unfold setTarget at hc
      by_cases hv : s.max_speed < |cv|
      · rw [if_pos hv] at hc
        exact absurd hc (by simp)
      · rw [if_neg hv] at hc
        by_cases hm : ¬(m = .MOVING ∨ m = .CRAWLING)
        · rw [if_pos hm] at hc
          exact absurd hc (by simp)
        · rw [if_neg hm] at hc
          simp only [Except.ok.injEq, Prod.mk.injEq] at hc
          obtain ⟨hd, hs2⟩ := hc
          subst hs2
          rcases of_not_not hm with h1 | h1
          · exact Or.inl h1
          · exact Or.inr (Or.inl h1)
  | stop h hc ih =>
      rename_i s t s2
      unfold stop at hc
      cases hev : evaluate s t with
      | error err =>
          rw [hev] at hc
          exact absurd hc (by simp [Except.map])
      | ok r =>
          rw [hev] at hc
          simp only [Except.map, Except.ok.injEq] at hc
          subst hc
          exact Or.inr (Or.inr rfl)
  | park h hc ih =>
      rename_i s t e s2
      unfold park at hc
      cases hev : evaluate s t with
      | error err =>
          rw [hev] at hc
          exact absurd hc (by simp [Except.map])
      | ok r =>
          rw [hev] at hc
          simp only [Except.map, Except.ok.injEq, Prod.mk.injEq] at hc
          obtain ⟨he, hs2⟩ := hc
          subst hs2
          exact Or.inr (Or.inr rfl)

/-- Claim C7: in any reachable state with a nonzero crawl velocity, the raw
(pre-wrap) positions of any two post-`end_tai` queries differ by exactly the
crawl velocity times the elapsed time, and both queries report phase
CRAWLING. -/
theorem claim7_crawl_linear (s : AzState) (hres : Reach s) (hc : s.crawl_velocity ≠ 0)
    (tai1 tai2 : ℝ) (h1 : s.end_tai ≤ tai1) (h12 : tai1 < tai2) :
    ∃ p1 p2, rawEvaluate s tai1 = .ok (p1, s.crawl_velocity, .CRAWLING) ∧
      rawEvaluate s tai2 = .ok (p2, s.crawl_velocity, .CRAWLING) ∧
      p2 - p1 = s.crawl_velocity * (tai2 - tai1) := by
  have hcm : s.commanded = .MOVING ∨ s.commanded = .CRAWLING := by
    rcases reach_crawl_commanded hres with h | h | h
    · exact Or.inl h
    · exact Or.inr h
    · exact absurd h hc
  have h2 : s.end_tai ≤ tai2 := le_trans h1 h12.le
  have hnp : ¬(s.commanded = .PARKING ∨ s.commanded = .PARKED) := by
    rcases hcm with h | h <;> rw [h] <;> simp
  have hns : ¬(s.commanded = .STOPPING ∨ s.commanded = .STOPPED) := by
    rcases hcm with h | h <;> rw [h] <;> simp
  have hbranch : ∀ tai, s.end_tai ≤ tai → rawEvaluate s tai =
      .ok ((if s.commanded = .CRAWLING then s.start_position else s.end_position) +
        s.crawl_velocity * (tai - s.end_tai), s.crawl_velocity, .CRAWLING) := by
    intro tai htai
    unfold rawEvaluate
    rw [if_pos htai, if_neg hnp, if_neg hns]
    simp only [if_neg hc]
  exact ⟨_, _, hbranch tai1 h1, hbranch tai2 h2, by ring⟩

/-- Witness for claim C7: the pure-crawl state `azS4`, reached by a CRAWLING
command with velocity 1/2, queried at times 2 and 4. -/
theorem claim7_witness :
    Reach azS4 ∧ azS4.crawl_velocity ≠ 0 ∧ azS4.end_tai ≤ 2 ∧ (2:ℝ) < 4 ∧
      ∃ p1 p2, rawEvaluate azS4 2 = .ok (p1, azS4.crawl_velocity, .CRAWLING) ∧
        rawEvaluate azS4 4 = .ok (p2, azS4.crawl_velocity, .CRAWLING) ∧
        p2 - p1 = azS4.crawl_velocity * (4 - 2) :=
  ⟨azReach4, by norm_num [azS4], by norm_num [azS4], by norm_num,
    claim7_crawl_linear azS4 azReach4 (by norm_num [azS4]) 2 4
      (by norm_num [azS4]) (by norm_num)⟩

/-! ### Invariant preservation for the aggregator -/

theorem ExtQ.isFinite_iff (e : ExtQ) : e.isFinite ↔ ∃ q, e = .fin q := by
  cases e <;> simp [ExtQ.isFinite]

theorem ExtQ.ble_pinf_fin (q : ℚ) : ExtQ.ble .pinf (.fin q) = false := rfl

theorem ExtQ.ble_fin_minf (q : ℚ) : ExtQ.ble (.fin q) .minf = false := rfl

theorem amcsInv_init (vmax t0 : ℚ) : (AmcsStatus.init vmax t0).inv := by
  refine ⟨trivial, trivial, fun _ => trivial, fun _ => trivial, ?_, ?_, ?_⟩ <;>
    simp [AmcsStatus.init]

theorem amcsInv_moveAz {s : AmcsStatus} (h : s.inv) (position velocity now : ℚ) :
    (s.moveAz position velocity now).inv := by
  obtain ⟨h1, h2, h3, h4, h5, h6, h7⟩ := h
  simp only [AmcsStatus.moveAz]
  split <;>
    exact ⟨h1, h1, fun _ => trivial, fun hx => absurd hx (by simp),
      fun hx => absurd hx (by simp), fun hx => absurd hx (by simp), by simp⟩

theorem amcsInv_crawlAz {s : AmcsStatus} (h : s.inv) (velocity now : ℚ) :
    (s.crawlAz velocity now).inv := by
  obtain ⟨h1, h2, h3, h4, h5, h6, h7⟩ := h
  simp only [AmcsStatus.crawlAz]
  split
  · rename_i hge
    exact ⟨h1, h1, fun hx => absurd hx (by simp), fun hx => absurd hx (by simp),
      fun _ => ⟨fun _ => rfl, fun hlt => absurd hlt (not_lt.mpr hge)⟩,
      fun hx => absurd hx (by simp), by simp⟩
  · rename_i hge
    exact ⟨h1, h1, fun hx => absurd hx (by simp), fun hx => absurd hx (by simp),
      fun _ => ⟨fun hge2 => absurd hge2 hge, fun _ => rfl⟩,
      fun hx => absurd hx (by simp), by simp⟩

theorem amcsInv_stopAz {s : AmcsStatus} (h : s.inv) (now : ℚ) : (s.stopAz now).inv := by
  obtain ⟨h1, h2, h3, h4, h5, h6, h7⟩ := h
  exact ⟨h1, h2, fun hx => absurd hx (by simp [AmcsStatus.stopAz]),
    fun hx => absurd hx (by simp [AmcsStatus.stopAz]),
    fun hx => absurd hx (by simp [AmcsStatus.stopAz]),
    fun hx => absurd hx (by simp [AmcsStatus.stopAz]), by simp [AmcsStatus.stopAz]⟩

theorem amcsInv_park {s : AmcsStatus} (h : s.inv) (now : ℚ) : (s.park now).inv := by
  obtain ⟨h1, h2, h3, h4, h5, h6, h7⟩ := h
  exact ⟨h1, h1, fun hx => absurd hx (by simp [AmcsStatus.park]), fun _ => trivial,
    fun hx => absurd hx (by simp [AmcsStatus.park]),
    fun hx => absurd hx (by simp [AmcsStatus.park]), by simp [AmcsStatus.park]⟩

theorem amcsInv_inflate {s : AmcsStatus} (h : s.inv) (action : Bool) (now : ℚ) :
    (s.inflate action now).inv := h

theorem amcsInv_fans {s : AmcsStatus} (h : s.inv) (action : Bool) (now : ℚ) :
    (s.fans action now).inv := h

/-- One `determine_status` cycle from any state satisfying the invariant
succeeds (hits neither `raise ValueError`) and preserves the invariant. -/
theorem amcs_determine_total_inv {s : AmcsStatus} (h : s.inv) (now : ℚ) :
    ∃ s2, s.determine_status now = .ok s2 ∧ s2.inv := by
  obtain ⟨vmax, mv, cv, status, fansB, sealB, orig, actual, cmd, va, vc, ct⟩ := s
  obtain ⟨h1, h2, h3, h4, h5, h6, h7⟩ := h
  obtain ⟨o, ho⟩ := (ExtQ.isFinite_iff _).mp h2
  subst ho
  cases status with
  | STOPPED =>
      simp only [AmcsStatus.determine_status]
      exact ⟨_, by simp, h1, trivial, h3, h4, h5, h6, h7⟩
  | STOPPING => exact absurd rfl h7
  | MOVING =>
      simp only [AmcsStatus.determine_status]
      rw [if_neg (by simp)]
      split
      · rw [if_pos (by simp)]
        rcases lt_trichotomy 0 cv with hcv | hcv | hcv
        · rw [if_pos hcv]
          exact ⟨_, rfl, h3 rfl, trivial, fun hx => absurd hx (by simp),
            fun hx => absurd hx (by simp),
            fun _ => ⟨fun _ => rfl, fun hlt => absurd hlt (not_lt.mpr hcv.le)⟩,
            fun hx => absurd hx (by simp), by simp⟩
        · rw [if_neg (by rw [← hcv]; exact lt_irrefl 0),
            if_neg (by rw [← hcv]; exact lt_irrefl 0)]
          exact ⟨_, rfl, h3 rfl, trivial, fun hx => absurd hx (by simp),
            fun hx => absurd hx (by simp), fun hx => absurd hx (by simp),
            fun hx => absurd hx (by simp), by simp⟩
        · rw [if_neg (not_lt.mpr hcv.le), if_pos hcv]
          exact ⟨_, rfl, h3 rfl, trivial, fun hx => absurd hx (by simp),
            fun hx => absurd hx (by simp),
            fun _ => ⟨fun hge => absurd hcv (not_lt.mpr hge), fun _ => rfl⟩,
            fun hx => absurd hx (by simp), by simp⟩
      · exact ⟨_, rfl, trivial, trivial, h3, h4, h5, h6, h7⟩
  | PARKING =>
      simp only [AmcsStatus.determine_status]
      rw [if_neg (by simp)]
      split
      · rw [if_neg (by simp), if_pos (by simp)]
        exact ⟨_, rfl, h4 rfl, trivial, fun hx => absurd hx (by simp),
          fun hx => absurd hx (by simp), fun hx => absurd hx (by simp),
          fun _ => rfl, by simp⟩
      · exact ⟨_, rfl, trivial, trivial, h3, h4, h5, h6, h7⟩
  | CRAWLING =>
      simp only [AmcsStatus.determine_status]
      rw [if_neg (by simp)]
      split
      · rename_i hb
        exfalso
        obtain ⟨hp, hm⟩ := h5 rfl
        rcases lt_trichotomy 0 mv with hmv | hmv | hmv
        · have hcmd : cmd = ExtQ.pinf := hp hmv.le
          subst hcmd
          simp [ExtQ.addQ, ExtQ.ble, not_lt.mpr hmv.le] at hb
        · have hmv0 : mv = 0 := hmv.symm
          subst hmv0
          simp at hb
        · have hcmd : cmd = ExtQ.minf := hm hmv
          subst hcmd
          simp [ExtQ.addQ, ExtQ.ble, not_lt.mpr hmv.le, asymm hmv] at hb
      · exact ⟨_, rfl, trivial, trivial, h3, h4, h5, h6, h7⟩
  | PARKED =>
      simp only [AmcsStatus.determine_status]
      rw [if_neg (by simp)]
      split
      · rename_i hb
        exfalso
        have hmv0 : mv = 0 := h6 rfl
        subst hmv0
        simp at hb
      · exact ⟨_, rfl, trivial, trivial, h3, h4, h5, h6, h7⟩

/-- Every reachable aggregator state satisfies the invariant. -/
theorem amcsReach_inv {s : AmcsStatus} (h : AmcsReach s) : s.inv := by
  induction h with
  | init vmax t0 => exact amcsInv_init vmax t0
  | moveAz h position velocity now ih => exact amcsInv_moveAz ih position velocity now
  | crawlAz h velocity now ih => exact amcsInv_crawlAz ih velocity now
  | stopAz h now ih => exact amcsInv_stopAz ih now
  | park h now ih => exact amcsInv_park ih now
  | inflate h action now ih => exact amcsInv_inflate ih action now
  | fans h action now ih => exact amcsInv_fans ih action now
  | determine h hc ih =>
      obtain ⟨s3, hs3, hinv3⟩ := amcs_determine_total_inv ih _
      rw [hc] at hs3
      cases hs3
      exact hinv3

/-! ## Claims C5 and C10 -/

/-- Claim C5, counterexample: the aggregator's `crawlAz` accepts a crawl
velocity of 999 deg/s against `vmax = 1` without any failure, mutates the
state, and the next `determine_status` query returns a different result than
it would have before the call. -/
theorem claim5_counterexample :
    (AmcsStatus.init 1 0).vmax < |(999 : ℚ)| ∧
      ((AmcsStatus.init 1 0).crawlAz 999 0).motion_velocity = 999 ∧
      ((AmcsStatus.init 1 0).crawlAz 999 0).status = .CRAWLING ∧
      (AmcsStatus.init 1 0).determine_status 1 = .ok (AmcsStatus.init 1 0) ∧
      ((AmcsStatus.init 1 0).crawlAz 999 0).determine_status 1 ≠
        (AmcsStatus.init 1 0).determine_status 1 := by
  decide

/-- Claim C5, amended: the engine's `set_target_position_and_velocity`
validates before mutating anything, so an over-limit crawl velocity or a
phase other than MOVING/CRAWLING yields an error with the prior state
untouched; the legacy aggregator's `crawlAz`, however, performs no
validation: it always records the requested velocity and enters CRAWLING,
even beyond `vmax`. -/
theorem claim5_invalid_command :
    (∀ (s : AzState) (t ep cv : ℝ) (m : MotionState),
      s.max_speed < |cv| → setTarget s t ep cv m = .error .crawlTooFast) ∧
    (∀ (s : AzState) (t ep cv : ℝ) (m : MotionState),
      |cv| ≤ s.max_speed → ¬(m = .MOVING ∨ m = .CRAWLING) →
      setTarget s t ep cv m = .error .badMotionState) ∧
    (∀ (s : AmcsStatus) (v now : ℚ),
      (s.crawlAz v now).motion_velocity = v ∧ (s.crawlAz v now).status = .CRAWLING) := by
  refine ⟨?_, ?_, ?_⟩
  · intro s t ep cv m hv
    unfold setTarget
    rw [if_pos hv]
  · intro s t ep cv m hv hm
    unfold setTarget
    rw [if_neg (not_lt.mpr hv), if_pos hm]
  · intro s v now
    simp only [AmcsStatus.crawlAz]
    split <;> exact ⟨rfl, rfl⟩

/-- Witness for the amended claim C5: the engine rejects crawl velocity 2
against max speed 1; the aggregator accepts velocity 999 against vmax 1. -/
theorem claim5_witness :
    azS0.max_speed < |(2 : ℝ)| ∧ setTarget azS0 0 0 2 .MOVING = .error .crawlTooFast ∧
      (((AmcsStatus.init 1 0).crawlAz 999 0).motion_velocity = 999 ∧
        ((AmcsStatus.init 1 0).crawlAz 999 0).status = .CRAWLING) :=
  ⟨by rw [abs_of_pos (by norm_num : (0:ℝ) < 2)]; norm_num [azS0, initState],
    claim5_invalid_command.1 azS0 0 0 2 .MOVING
      (by rw [abs_of_pos (by norm_num : (0:ℝ) < 2)]; norm_num [azS0, initState]),
    claim5_invalid_command.2.2 (AmcsStatus.init 1 0) 999 0⟩

/-- Claim C10: from every reachable aggregator state, `determine_status`
never raises: every cycle returns a successor state; while CRAWLING the
commanded position is plus infinity for non-negative motion velocity and
minus infinity for negative; and the boundary check only fires in MOVING or
PARKING states. -/
theorem claim10_no_value_error (s : AmcsStatus) (h : AmcsReach s) :
    (∀ t, ∃ s2, s.determine_status t = .ok s2) ∧
    (s.status = MotionState.CRAWLING →
      (0 ≤ s.motion_velocity → s.position_commanded = ExtQ.pinf) ∧
      (s.motion_velocity < 0 → s.position_commanded = ExtQ.minf)) ∧
    (∀ t, boundaryFires s t →
      s.status = MotionState.MOVING ∨ s.status = MotionState.PARKING) := by
  have hinv := amcsReach_inv h
  obtain ⟨h1, h2, h3, h4, h5, h6, h7⟩ := hinv
  refine ⟨fun t => ?_, h5, fun t hf => ?_⟩
  · obtain ⟨s2, hs2, _⟩ := amcs_determine_total_inv ⟨h1, h2, h3, h4, h5, h6, h7⟩ t
    exact ⟨s2, hs2⟩
  · obtain ⟨hne, hcond⟩ := hf
    obtain ⟨o, ho⟩ := (ExtQ.isFinite_iff _).mp h2
    cases hst : s.status with
    | MOVING => exact Or.inl rfl
    | PARKING => exact Or.inr rfl
    | STOPPED => exact absurd hst hne
    | STOPPING => exact absurd hst h7
    | CRAWLING =>
        exfalso
        obtain ⟨hp, hm⟩ := h5 hst
        have hq : s.position_orig.addQ (s.motion_velocity * (t - s.command_time_tai)) =
            ExtQ.fin (o + s.motion_velocity * (t - s.command_time_tai)) := by
          rw [ho]
          rfl
        rcases lt_trichotomy 0 s.motion_velocity with hmv | hmv | hmv
        · rw [hq, hp hmv.le] at hcond
          simp [ExtQ.ble, not_lt.mpr hmv.le] at hcond
        · have d1 : (0 < s.motion_velocity) = False := by
            rw [← hmv]
            simp
          have d2 : (s.motion_velocity < 0) = False := by
            rw [← hmv]
            simp
          simp [d1, d2] at hcond
        · rw [hq, hm hmv] at hcond
          simp [ExtQ.ble, not_lt.mpr hmv.le] at hcond
    | PARKED =>
        exfalso
        have d1 : (0 < s.motion_velocity) = False := by
          rw [h6 hst]
          simp
        have d2 : (s.motion_velocity < 0) = False := by
          rw [h6 hst]
          simp
        simp [d1, d2] at hcond

/-- Witness for claim C10: one `determine_status` cycle on the freshly
constructed aggregator succeeds. -/
theorem claim10_witness :
    ∃ s2, (AmcsStatus.init 1 0).determine_status 1 = .ok s2 :=
  (claim10_no_value_error _ (AmcsReach.init 1 0)).1 1

end MTDome
